import Mathlib

/-!
A shallow embedding of the `memory-particles` simulation (src/src/main.rs).

Floating-point values (`f64` coordinates, `f32` color channels) are embedded
as exact rationals `ℚ`, following the spec's idealization that the physics
update is "pure arithmetic on finite values".  Random draws performed by the
code (`rng.gen_range`) are embedded as explicit parameters; where a claim
depends on the range of a draw, the range appears as a hypothesis.  A call of
`Vec::remove` whose index is out of bounds panics in Rust; the embedding
returns `none` at exactly those points, so `Option` tracks panic-freedom.
The allocator wrapper is embedded over an abstract underlying allocator and
an abstract elapsed-time input, since wall-clock time itself is not modelled.
-/

/-- 2D vector, embedding `graphics::math::Vec2d<f64>`. -/
structure Vec2 where
  x : ℚ
  y : ℚ
  deriving DecidableEq, Repr

/-- `graphics::math::add`: component-wise vector addition. -/
def add (a b : Vec2) : Vec2 := ⟨a.x + b.x, a.y + b.y⟩

/-- `graphics::math::mul_scalar`: scale both components. -/
def mul_scalar (a : Vec2) (k : ℚ) : Vec2 := ⟨a.x * k, a.y * k⟩

/-- RGBA color, embedding the `[f32; 4]` array `color`;
`r`,`g`,`b`,`alpha` stand for `color[0]`,`color[1]`,`color[2]`,`color[3]`. -/
structure Color where
  r : ℚ
  g : ℚ
  b : ℚ
  alpha : ℚ
  deriving DecidableEq, Repr

/-- The `Particle` struct of src/src/main.rs. -/
structure Particle where
  height : ℚ
  width : ℚ
  position : Vec2
  velocity : Vec2
  acceleration : Vec2
  color : Color
  deriving DecidableEq, Repr

/-- The `World` struct.  The `rng: ThreadRng` field is not part of the state
here: every random draw the code makes from it is instead an explicit input
of the operation that draws it. -/
structure World where
  current_turn : ℕ
  particles : List Particle
  height : ℚ
  width : ℚ
  deriving Repr

/-- `Particle::new(world)`.  The three `rng.gen_range` draws are the
parameters `x` (from `0.0..=world.width`), `y_velocity` (from `-2.0..0.0`)
and `y_acceleration` (from `0.0..0.15`). -/
def Particle.new (world : World) (x y_velocity y_acceleration : ℚ) : Particle :=
  let y := world.height
  let x_velocity : ℚ := 0
  let x_acceleration : ℚ := 0
  { height := 4
    width := 4
    position := ⟨x, y⟩
    velocity := ⟨x_velocity, y_velocity⟩
    acceleration := ⟨x_acceleration, y_acceleration⟩
    color := ⟨1, 1, 1, 0.99⟩ }

/-- `Particle::update`: the four mutation steps, in source order.  The
position step reads the velocity already updated on the previous line. -/
def Particle.update (p : Particle) : Particle :=
  let velocity := add p.velocity p.acceleration
  let position := add p.position velocity
  let acceleration := mul_scalar p.acceleration 0.7
  { p with
    velocity := velocity
    position := position
    acceleration := acceleration
    color := { p.color with alpha := p.color.alpha * 0.995 } }

/-- `World::add_shapes(n)`: push `n.abs()` particles built by
`Particle::new`, in loop order; `draws i` supplies the three random values of
the `i`-th spawn. -/
def World.add_shapes (w : World) (draws : ℕ → ℚ × ℚ × ℚ) (n : ℤ) : World :=
  { w with
    particles := w.particles ++
      (List.range n.natAbs).map fun i =>
        Particle.new w (draws i).1 (draws i).2.1 (draws i).2.2 }

/-- One iteration of the loop body of `World::remove_shapes`.  The inner
`for (i, particle) in particle_iter` body ends in an unconditional `break`,
so it inspects at most the element at index 0: on a non-empty list
`to_delete` is `some 0` when the head's alpha is below `0.02` and `none`
otherwise, and on the empty list it is `none`.  `Vec::remove(i)` panics when
`i` is out of bounds, which the embedding renders as `none`. -/
def removeShapesOnce (ps : List Particle) : Option (List Particle) :=
  let to_delete : Option ℕ :=
    match ps with
    | [] => none
    | particle :: _ => if particle.color.alpha < 0.02 then some 0 else none
  match to_delete with
  | some i => if i < ps.length then some (ps.eraseIdx i) else none
  | none => if 0 < ps.length then some (ps.eraseIdx 0) else none

/-- The `for _ in 0..n.abs()` loop of `World::remove_shapes`, iterated on the
particle list; `none` propagates a panic of any iteration. -/
def removeIterate : ℕ → List Particle → Option (List Particle)
  | 0, ps => some ps
  | k + 1, ps => (removeShapesOnce ps).bind (removeIterate k)

/-- `World::remove_shapes(n)`. -/
def World.remove_shapes (w : World) (n : ℤ) : Option World :=
  (removeIterate n.natAbs w.particles).map fun ps => { w with particles := ps }

/-- `World::update`.  The drawn `n` (`rng.gen_range(-3..=3)`) is the
parameter `n`; `draws` supplies the spawn randomness.  `shrink_to_fit` only
changes backing capacity, which the list model has no counterpart of. -/
def World.update (w : World) (n : ℤ) (draws : ℕ → ℚ × ℚ × ℚ) : Option World :=
  let afterPop : Option World :=
    if n > 0 then some (w.add_shapes draws n) else w.remove_shapes n
  afterPop.map fun w1 =>
    { w1 with
      particles := w1.particles.map Particle.update
      current_turn := w1.current_turn + 1 }

/-- `Layout`: size and alignment of an allocation request. -/
structure Layout where
  size : ℕ
  align : ℕ

/-- An abstract underlying allocator (the role `System` plays in the source):
a state machine whose `alloc` returns a pointer value (`0` standing for the
null pointer, i.e. allocation failure) and a new state, and whose `dealloc`
returns a new state. -/
structure SysAllocator (σ : Type) where
  alloc : σ → Layout → ℕ × σ
  dealloc : σ → ℕ → Layout → σ

/-- `ReportingAllocator::alloc`: defer to the underlying allocator, then emit
one diagnostic line `(bytes_requested, nanoseconds)` and return the pointer
unchanged.  Elapsed wall-clock time is the abstract input `elapsedNanos`. -/
def ReportingAllocator.alloc {σ : Type} (sys : SysAllocator σ) (s : σ)
    (elapsedNanos : ℕ) (layout : Layout) : ℕ × σ × List (ℕ × ℕ) :=
  let r := sys.alloc s layout
  let bytes_requested := layout.size
  (r.1, r.2, [(bytes_requested, elapsedNanos)])

/-- `ReportingAllocator::dealloc`: forward to the underlying allocator; no
diagnostic line. -/
def ReportingAllocator.dealloc {σ : Type} (sys : SysAllocator σ) (s : σ)
    (ptr : ℕ) (layout : Layout) : σ × List (ℕ × ℕ) :=
  (sys.dealloc s ptr layout, [])

/-! ## Helper lemmas -/

/-- On a non-empty list the removal loop body deletes exactly index 0. -/
theorem removeShapesOnce_eq_tail (ps : List Particle) (h : ps ≠ []) :
    removeShapesOnce ps = some ps.tail := by
  match ps, h with
  | particle :: rest, _ =>
    simp only [removeShapesOnce]
    by_cases hc : particle.color.alpha < 0.02 <;>
      simp [hc, List.eraseIdx]

/-- Removing the empty list panics. -/
theorem removeShapesOnce_nil : removeShapesOnce [] = none := rfl

/-- With at least `k` particles, `k` removal iterations succeed and drop
exactly the first `k` elements. -/
theorem removeIterate_eq_drop (k : ℕ) (ps : List Particle)
    (h : k ≤ ps.length) : removeIterate k ps = some (ps.drop k) := by
  induction k generalizing ps with
  | zero => simp [removeIterate]
  | succ m ih =>
    have hne : ps ≠ [] := by
      intro hnil
      rw [hnil] at h
      exact absurd h (by simp)
    rw [removeIterate, removeShapesOnce_eq_tail ps hne, Option.some_bind,
      ih ps.tail (by rw [List.length_tail]; omega)]
    match ps, hne with
    | _ :: rest, _ => simp

/-- Alpha after `k` physics updates is the initial alpha times `0.995 ^ k`. -/
theorem alpha_iterate (p : Particle) (k : ℕ) :
    (Particle.update^[k] p).color.alpha = p.color.alpha * 0.995 ^ k := by
  induction k with
  | zero => simp
  | succ m ih =>
    rw [Function.iterate_succ_apply', Particle.update, ih]
    ring

/-- A physics update leaves size and the r, g, b channels unchanged. -/
theorem update_preserves_frame (p : Particle) :
    (p.update).height = p.height ∧ (p.update).width = p.width ∧
      (p.update).color.r = p.color.r ∧ (p.update).color.g = p.color.g ∧
      (p.update).color.b = p.color.b := by
  simp [Particle.update]

/-- If both horizontal components are zero, one update keeps them zero and
fixes the horizontal position. -/
theorem update_preserves_x (p : Particle) (hv : p.velocity.x = 0)
    (ha : p.acceleration.x = 0) :
    (p.update).velocity.x = 0 ∧ (p.update).acceleration.x = 0 ∧
      (p.update).position.x = p.position.x := by
  simp [Particle.update, add, mul_scalar, hv, ha]

/-! ## Concrete instances used by witnesses -/

/-- A particle with alpha `0.99` (not faded). -/
def pBright : Particle :=
  { height := 4, width := 4, position := ⟨1, 960⟩, velocity := ⟨0, -1⟩,
    acceleration := ⟨0, 1/10⟩, color := ⟨1, 1, 1, 0.99⟩ }

/-- A particle with alpha `0.01` (below the fade threshold `0.02`). -/
def pFaded : Particle :=
  { height := 4, width := 4, position := ⟨2, 960⟩, velocity := ⟨0, -1⟩,
    acceleration := ⟨0, 1/10⟩, color := ⟨1, 1, 1, 0.01⟩ }

/-- A spawn-randomness stream for witnesses: every spawn draws
`x = 1`, `y_velocity = -1`, `y_acceleration = 1/10`. -/
def drawsW : ℕ → ℚ × ℚ × ℚ := fun _ => (1, -1, 1/10)

/-! ## Claim theorems -/

/-- C1: on every non-empty particle collection, one removal iteration of
`remove_shapes` deletes exactly the element at index 0 — whatever the alpha
of the head or of any other element — and the survivors keep their relative
order (the result is exactly the tail); in particular `remove_shapes(1)`
removes exactly the head. -/
theorem c1_remove_head (w : World) (h : w.particles ≠ []) :
    removeShapesOnce w.particles = some w.particles.tail ∧
      w.remove_shapes 1 = some { w with particles := w.particles.tail } := by
  refine ⟨removeShapesOnce_eq_tail _ h, ?_⟩
  simp [World.remove_shapes, removeIterate, removeShapesOnce_eq_tail _ h]

/-- Witness for C1 at a concrete two-particle world whose head is bright and
whose second particle is faded: the head is removed anyway. -/
theorem c1_remove_head_witness :
    removeShapesOnce (World.mk 0 [pBright, pFaded] 960 1280).particles =
        some [pFaded] ∧
      (World.mk 0 [pBright, pFaded] 960 1280).remove_shapes 1 =
        some (World.mk 0 [pFaded] 960 1280) :=
  c1_remove_head (World.mk 0 [pBright, pFaded] 960 1280) (by simp)

/-- C2: the code does not guard the empty collection: `remove_shapes(1)` on
a World with no particles reaches `self.particles.remove(0)` on an empty
vector, which panics (embedded as `none`), instead of the guarded no-op the
claim requires. -/
theorem c2_empty_remove_panics :
    (World.mk 0 [] 960 1280).remove_shapes 1 = none := rfl

/-- C4: one `Particle.update` performs `velocity += acceleration`, then
`position += velocity` using the already-updated velocity, then
`acceleration *= 0.7` on both components, then `alpha *= 0.995`. -/
theorem c4_update_order (p : Particle) :
    (p.update).velocity.x = p.velocity.x + p.acceleration.x ∧
    (p.update).velocity.y = p.velocity.y + p.acceleration.y ∧
    (p.update).position.x = p.position.x + (p.velocity.x + p.acceleration.x) ∧
    (p.update).position.y = p.position.y + (p.velocity.y + p.acceleration.y) ∧
    (p.update).acceleration.x = p.acceleration.x * 0.7 ∧
    (p.update).acceleration.y = p.acceleration.y * 0.7 ∧
    (p.update).color.alpha = p.color.alpha * 0.995 := by
  refine ⟨rfl, rfl, rfl, rfl, rfl, rfl, rfl⟩

/-- C6: every particle created by `Particle::new`, after any number of
updates, has alpha in (0, 1], and alpha never increases from one update to
the next. -/
theorem c6_alpha_invariant (world : World) (x vy ay : ℚ) (k : ℕ) :
    0 < (Particle.update^[k] (Particle.new world x vy ay)).color.alpha ∧
    (Particle.update^[k] (Particle.new world x vy ay)).color.alpha ≤ 1 ∧
    (Particle.update^[k + 1] (Particle.new world x vy ay)).color.alpha ≤
      (Particle.update^[k] (Particle.new world x vy ay)).color.alpha := by
  have hnew : (Particle.new world x vy ay).color.alpha = 0.99 := rfl
  rw [alpha_iterate, alpha_iterate, hnew]
  have hp : (0 : ℚ) < 0.995 ^ k := by positivity
  have h1 : (0.995 : ℚ) ^ k ≤ 1 := pow_le_one₀ (by norm_num) (by norm_num)
  refine ⟨by positivity, by nlinarith, ?_⟩
  rw [pow_succ]
  nlinarith

/-- C9: a physics update mutates only position, velocity, acceleration and
the alpha channel: size and the r, g, b channels are unchanged after any
number of updates. -/
theorem c9_frame (p : Particle) (k : ℕ) :
    (Particle.update^[k] p).height = p.height ∧
    (Particle.update^[k] p).width = p.width ∧
    (Particle.update^[k] p).color.r = p.color.r ∧
    (Particle.update^[k] p).color.g = p.color.g ∧
    (Particle.update^[k] p).color.b = p.color.b := by
  induction k with
  | zero => exact ⟨rfl, rfl, rfl, rfl, rfl⟩
  | succ m ih =>
    rw [Function.iterate_succ_apply']
    obtain ⟨h1, h2, h3, h4, h5⟩ := update_preserves_frame (Particle.update^[m] p)
    exact ⟨h1.trans ih.1, h2.trans ih.2.1, h3.trans ih.2.2.1,
      h4.trans ih.2.2.2.1, h5.trans ih.2.2.2.2⟩

/-- C10: particles created by `Particle::new` have zero horizontal velocity
and acceleration, both stay zero under every update, and hence the
horizontal position stays at the spawn value `x` forever. -/
theorem c10_horizontal (world : World) (x vy ay : ℚ) (k : ℕ) :
    (Particle.update^[k] (Particle.new world x vy ay)).velocity.x = 0 ∧
    (Particle.update^[k] (Particle.new world x vy ay)).acceleration.x = 0 ∧
    (Particle.update^[k] (Particle.new world x vy ay)).position.x = x := by
  induction k with
  | zero => exact ⟨rfl, rfl, rfl⟩
  | succ m ih =>
    rw [Function.iterate_succ_apply']
    obtain ⟨h1, h2, h3⟩ := ih
    obtain ⟨g1, g2, g3⟩ := update_preserves_x _ h1 h2
    exact ⟨g1, g2, g3.trans h3⟩

/-- C3: spawning happens before the per-tick physics loop in `World::update`,
so every particle present after the population change — including the newly
spawned ones — receives exactly one physics update that same tick: from 1000
particles all at alpha 0.99, an update whose drawn n is 3 yields 1003
particles all at alpha 0.99 * 0.995 = 0.98505. -/
theorem c3_spawn_before_update (w : World) (draws : ℕ → ℚ × ℚ × ℚ)
    (hlen : w.particles.length = 1000)
    (halpha : ∀ p ∈ w.particles, p.color.alpha = 0.99) :
    ∃ w1, w.update 3 draws = some w1 ∧
      w1.particles.length = 1003 ∧
      ∀ p ∈ w1.particles, p.color.alpha = 0.98505 := by
  have hup : w.update 3 draws = some
      { w.add_shapes draws 3 with
        particles := (w.add_shapes draws 3).particles.map Particle.update
        current_turn := (w.add_shapes draws 3).current_turn + 1 } := rfl
  refine ⟨_, hup, ?_, ?_⟩
  · simp [World.add_shapes, hlen]
  · intro p hp
    simp only [World.add_shapes, List.mem_map, List.mem_append] at hp
    obtain ⟨q, hq, rfl⟩ := hp
    have hq99 : q.color.alpha = 0.99 := by
      rcases hq with hq | hq
      · exact halpha q hq
      · obtain ⟨i, _, rfl⟩ := hq
        rfl
    have hu : (Particle.update q).color.alpha = q.color.alpha * 0.995 := rfl
    rw [hu, hq99]
    norm_num

/-- Witness for C3: a concrete world of 1000 bright particles, drawn n = 3. -/
theorem c3_spawn_before_update_witness :
    ∃ w1, (World.mk 0 (List.replicate 1000 pBright) 960 1280).update 3 drawsW
        = some w1 ∧
      w1.particles.length = 1003 ∧
      ∀ p ∈ w1.particles, p.color.alpha = 0.98505 :=
  c3_spawn_before_update _ drawsW (List.length_replicate 1000 pBright)
    (fun p hp => by rw [List.eq_of_mem_replicate hp]; rfl)

/-- C5 counterexample: on the World with an empty particle collection and a
drawn n = -1, `update` does not produce a successor state at all — the
removal loop panics in `Vec::remove(0)` — so the claim's "for every World
state the population changes by the drawn amount" is false as stated. -/
theorem c5_counterexample :
    ¬ ∃ w1, (World.mk 0 [] 960 1280).update (-1) drawsW = some w1 := by
  rintro ⟨w1, hw⟩
  rw [show (World.mk 0 [] 960 1280).update (-1) drawsW = none from rfl] at hw
  exact Option.noConfusion hw

/-- C5 (amended): for every drawn n in [-3, 3], provided the population has
at least |n| particles whenever n ≤ 0, `update` succeeds and changes the
population size by exactly n — adding n when n > 0, removing |n| when n ≤ 0,
with n = 0 removing nothing — and the resulting population is never
negative.  (Without that proviso the removal loop panics once the collection
is exhausted; see the counterexample.) -/
theorem c5_population_delta (w : World) (n : ℤ) (draws : ℕ → ℚ × ℚ × ℚ)
    (h1 : -3 ≤ n) (h2 : n ≤ 3)
    (h3 : n ≤ 0 → n.natAbs ≤ w.particles.length) :
    ∃ w1, w.update n draws = some w1 ∧
      (w1.particles.length : ℤ) = w.particles.length + n ∧
      0 ≤ (w1.particles.length : ℤ) := by
  by_cases hn : 0 < n
  · have hup : w.update n draws = some
        { w.add_shapes draws n with
          particles := (w.add_shapes draws n).particles.map Particle.update
          current_turn := (w.add_shapes draws n).current_turn + 1 } := by
      simp only [World.update, if_pos hn]
      rfl
    refine ⟨_, hup, ?_, ?_⟩
    · simp only [World.add_shapes, List.length_map, List.length_append,
        List.length_range]
      omega
    · exact Int.natCast_nonneg _
  · have hle : n.natAbs ≤ w.particles.length := h3 (by omega)
    have hrem : removeIterate n.natAbs w.particles
        = some (w.particles.drop n.natAbs) :=
      removeIterate_eq_drop _ _ hle
    have hup : w.update n draws = some
        { w with
          particles := (w.particles.drop n.natAbs).map Particle.update
          current_turn := w.current_turn + 1 } := by
      simp only [World.update, if_neg hn, World.remove_shapes, hrem]
      rfl
    refine ⟨_, hup, ?_, ?_⟩
    · simp only [List.length_map, List.length_drop]
      omega
    · exact Int.natCast_nonneg _

/-- Witness for C5 at a concrete three-particle world with drawn n = -2. -/
theorem c5_population_delta_witness :
    ∃ w1, (World.mk 0 [pBright, pBright, pFaded] 960 1280).update (-2) drawsW
        = some w1 ∧
      (w1.particles.length : ℤ) =
        (World.mk 0 [pBright, pBright, pFaded] 960 1280).particles.length
          + (-2) ∧
      0 ≤ (w1.particles.length : ℤ) :=
  c5_population_delta _ (-2) drawsW (by norm_num) (by norm_num)
    (fun _ => by simp)

/-- C7: the Allocation Monitor's `alloc` forwards to the underlying
allocator and returns exactly its result — same pointer (null/failure value
included) and same underlying state — while emitting exactly one diagnostic
line (bytes requested, elapsed nanoseconds) regardless of the outcome;
`dealloc` forwards unchanged with no measurement and no diagnostic line. -/
theorem c7_allocator_transparent {σ : Type} (sys : SysAllocator σ) (s : σ)
    (elapsedNanos : ℕ) (layout : Layout) (ptr : ℕ) :
    (ReportingAllocator.alloc sys s elapsedNanos layout).1
        = (sys.alloc s layout).1 ∧
    (ReportingAllocator.alloc sys s elapsedNanos layout).2.1
        = (sys.alloc s layout).2 ∧
    (ReportingAllocator.alloc sys s elapsedNanos layout).2.2
        = [(layout.size, elapsedNanos)] ∧
    (ReportingAllocator.dealloc sys s ptr layout).1
        = sys.dealloc s ptr layout ∧
    (ReportingAllocator.dealloc sys s ptr layout).2 = [] :=
  ⟨rfl, rfl, rfl, rfl, rfl⟩

/-- C8: a particle built by `Particle::new` from bounds (width, height) and
in-range draws has position (x, height) with x in [0, width], velocity
(0, vy) with vy in [-2, 0), acceleration (0, ay) with ay in [0, 0.15), size
(4, 4), and color (1, 1, 1, 0.99), i.e. alpha 0.99. -/
theorem c8_new_fields (world : World) (x vy ay : ℚ)
    (hx0 : 0 ≤ x) (hx1 : x ≤ world.width)
    (hv0 : -2 ≤ vy) (hv1 : vy < 0)
    (ha0 : 0 ≤ ay) (ha1 : ay < 0.15) :
    (Particle.new world x vy ay).position = ⟨x, world.height⟩ ∧
    (0 ≤ (Particle.new world x vy ay).position.x ∧
      (Particle.new world x vy ay).position.x ≤ world.width) ∧
    (Particle.new world x vy ay).velocity = ⟨0, vy⟩ ∧
    (-2 ≤ (Particle.new world x vy ay).velocity.y ∧
      (Particle.new world x vy ay).velocity.y < 0) ∧
    (Particle.new world x vy ay).acceleration = ⟨0, ay⟩ ∧
    (0 ≤ (Particle.new world x vy ay).acceleration.y ∧
      (Particle.new world x vy ay).acceleration.y < 0.15) ∧
    (Particle.new world x vy ay).width = 4 ∧
    (Particle.new world x vy ay).height = 4 ∧
    (Particle.new world x vy ay).color = ⟨1, 1, 1, 0.99⟩ :=
  ⟨rfl, ⟨hx0, hx1⟩, rfl, ⟨hv0, hv1⟩, rfl, ⟨ha0, ha1⟩, rfl, rfl, rfl⟩

/-- Witness for C8 at bounds (1280, 960) with draws x = 1, vy = -1,
ay = 1/10. -/
theorem c8_new_fields_witness :
    (Particle.new (World.mk 0 [] 960 1280) 1 (-1) (1/10)).position
        = ⟨1, 960⟩ ∧
    (0 ≤ (Particle.new (World.mk 0 [] 960 1280) 1 (-1) (1/10)).position.x ∧
      (Particle.new (World.mk 0 [] 960 1280) 1 (-1) (1/10)).position.x
        ≤ 1280) ∧
    (Particle.new (World.mk 0 [] 960 1280) 1 (-1) (1/10)).velocity
        = ⟨0, -1⟩ ∧
    (-2 ≤ (Particle.new (World.mk 0 [] 960 1280) 1 (-1) (1/10)).velocity.y ∧
      (Particle.new (World.mk 0 [] 960 1280) 1 (-1) (1/10)).velocity.y
        < 0) ∧
    (Particle.new (World.mk 0 [] 960 1280) 1 (-1) (1/10)).acceleration
        = ⟨0, 1/10⟩ ∧
    (0 ≤ (Particle.new (World.mk 0 [] 960 1280) 1 (-1)
        (1/10)).acceleration.y ∧
      (Particle.new (World.mk 0 [] 960 1280) 1 (-1) (1/10)).acceleration.y
        < 0.15) ∧
    (Particle.new (World.mk 0 [] 960 1280) 1 (-1) (1/10)).width = 4 ∧
    (Particle.new (World.mk 0 [] 960 1280) 1 (-1) (1/10)).height = 4 ∧
    (Particle.new (World.mk 0 [] 960 1280) 1 (-1) (1/10)).color
        = ⟨1, 1, 1, 0.99⟩ :=
  c8_new_fields (World.mk 0 [] 960 1280) 1 (-1) (1/10) (by norm_num)
    (by norm_num) (by norm_num) (by norm_num) (by norm_num) (by norm_num)
